import Mathlib

/-!
The cross-call alias cursor `kmod_alias_lookup`.

A shallow embedding of `src/kmod_alias.c`.  The C function `kmod_alias_lookup`
is a set-returning function: the host calls it repeatedly, it hands back one
module name per call and finally an end-of-data signal.  Its state lives in the
slot `fn_extra` between calls.

The embedding makes three things explicit that are implicit in C:

* the persistent slot is an argument and a result of every call;
* every call of the alias database library (and of `strdup`/`free`) is
  recorded, in program order, in a trace of `Event`s;
* `ereport(ERROR, ...)` is an outcome of the call instead of a non-local exit.

Pointers are `Option Nat`: `none` is `NULL`, `some a` is the address `a`.
-/

namespace KmodAlias

/-! ## Data model -/

/-- The constant `SRF_MAXCALLS` (line 45). -/
def SRF_MAXCALLS : Nat := 32

/-- The width of `call_cntr` and `max_calls` (both `uint64` in the host's
`FuncCallContext`). -/
def UINT64_MOD : Nat := 18446744073709551616

/-- The struct `kmod_alias_ctx` (lines 48-53): the connection handle, the head
of the result list and the position marker. -/
structure kmod_alias_ctx where
  kctx : Option Nat
  list : Option Nat
  itr : Option Nat
  deriving DecidableEq, Repr

/-- The fields of the host's `FuncCallContext` that the function reads or
writes: the number of rows already returned, the cap, and the user data. -/
structure FuncCallContext where
  call_cntr : Nat
  max_calls : Nat
  user_fctx : kmod_alias_ctx
  deriving DecidableEq, Repr

/-- The alias database library and the C library, as the function sees them.
These are external collaborators, so they are parameters of the embedding.

* `kmod_new` is the value returned by `kmod_new(NULL, NULL)`;
* `kmod_module_new_from_lookup ctx alias` is the returned status together with
  the value left in `*list` (which is `NULL` before the call);
* `kmod_module_get_module itr` is the module held by the list node `itr`;
* `kmod_module_get_name mod` is the module's name;
* `kmod_list_next list curr` is the successor of the node `curr`;
* `strerror n` is the C library's text for the number `n`. -/
structure KmodLib where
  kmod_new : Option Nat
  kmod_module_new_from_lookup : Nat → String → Int × Option Nat
  kmod_module_get_module : Nat → Nat
  kmod_module_get_name : Nat → String
  kmod_list_next : Option Nat → Nat → Option Nat
  strerror : Int → String

/-- One call made by `kmod_alias_lookup` into the alias database library or the
C library, with its arguments and, where it has one, its result. -/
inductive Event where
  | kmod_new (ret : Option Nat)
  | kmod_module_new_from_lookup (ctx : Nat) (pattern : String) (err : Int)
      (list : Option Nat)
  | kmod_module_get_module (itr : Nat) (mod : Nat)
  | kmod_module_get_name (mod : Nat) (name : String)
  | strdup (s : String)
  | kmod_module_unref (mod : Nat)
  | kmod_list_next (list : Option Nat) (curr : Nat) (ret : Option Nat)
  | CStringGetTextDatum (s : String)
  | free (s : String)
  | kmod_module_unref_list (list : Option Nat)
  | kmod_unref (ctx : Option Nat)
  deriving DecidableEq, Repr

/-- How one call of the function ends: `SRF_RETURN_NEXT(funcctx, result)`,
`SRF_RETURN_DONE(funcctx)` or `ereport(ERROR, (errmsg(msg)))`. -/
inductive Outcome where
  | next (result : String)
  | done
  | error (msg : String)
  deriving DecidableEq, Repr

/-- What one call of the function leaves behind: the persistent slot
`fn_extra` after the call, the library calls it made, and its outcome. -/
structure Result where
  fn_extra : Option FuncCallContext
  trace : List Event
  outcome : Outcome
  deriving DecidableEq, Repr

/-! ## The function -/

/-- The body of `if(SRF_IS_FIRSTCALL())` (lines 64-110).  `SRF_FIRSTCALL_INIT`
creates the function context with `call_cntr = 0`; the block fills in
`max_calls` and `user_fctx`.  The two `ereport(ERROR, ...)` leave the function
at once; the events recorded up to that point are returned with the message. -/
def firstcall (lib : KmodLib) (arg0 : String) :
    Except (String × List Event) (FuncCallContext × List Event) :=
  -- kactx->kctx = kmod_new(NULL, NULL);
  match lib.kmod_new with
  | none =>
    -- if(kactx->kctx == NULL) ereport(ERROR, (errmsg("kmod_new() failed")));
    .error ("kmod_new() failed", [Event.kmod_new none])
  | some c =>
    -- kactx->list = NULL;
    -- err = kmod_module_new_from_lookup(kactx->kctx, ..., &kactx->list);
    let err := (lib.kmod_module_new_from_lookup c arg0).1
    let list := (lib.kmod_module_new_from_lookup c arg0).2
    let tr := [Event.kmod_new (some c),
               Event.kmod_module_new_from_lookup c arg0 err list]
    if err < 0 then
      -- ereport(ERROR, (errmsg("kmod_module_new_from_lookup() "
      --     "failed: %s", strerror(err))));
      .error ("kmod_module_new_from_lookup() failed: " ++ lib.strerror err, tr)
    else
      -- kactx->itr = ((kactx->list) == NULL) ? NULL : (kactx->list);
      let itr := if list = none then none else list
      -- funcctx->max_calls = SRF_MAXCALLS; funcctx->user_fctx = kactx;
      .ok ({ call_cntr := 0, max_calls := SRF_MAXCALLS,
             user_fctx := { kctx := some c, list := list, itr := itr } }, tr)

/-- The row-producing branch (lines 119-136), entered with `kactx->itr` equal
to the non-NULL node `itr`.  `SRF_RETURN_NEXT` increments `call_cntr`. -/
def rowResult (lib : KmodLib) (funcctx : FuncCallContext) (itr : Nat) : Result :=
  let kactx := funcctx.user_fctx
  -- mod = kmod_module_get_module(kactx->itr);
  let mod := lib.kmod_module_get_module itr
  -- modname = strdup(kmod_module_get_name(mod));
  let modname := lib.kmod_module_get_name mod
  -- kactx->itr = kmod_list_next(kactx->list, kactx->itr);
  let nxt := lib.kmod_list_next kactx.list itr
  { fn_extra := some { funcctx with
                         call_cntr := (funcctx.call_cntr + 1) % UINT64_MOD,
                         user_fctx := { kactx with itr := nxt } },
    trace := [Event.kmod_module_get_module itr mod,
              Event.kmod_module_get_name mod modname,
              Event.strdup modname,
              Event.kmod_module_unref mod,
              Event.kmod_list_next kactx.list itr nxt,
              Event.CStringGetTextDatum modname,
              Event.free modname],
    outcome := Outcome.next modname }

/-- The final branch (lines 138-144).  `SRF_RETURN_DONE` ends the multi-call
protocol: the host clears `fn_extra`. -/
def doneResult (funcctx : FuncCallContext) : Result :=
  let kactx := funcctx.user_fctx
  { fn_extra := none,
    trace := [Event.kmod_module_unref_list kactx.list,
              Event.kmod_unref kactx.kctx],
    outcome := Outcome.done }

/-- The per-call part of the function (lines 112-144), run on every call after
`SRF_PERCALL_SETUP`:
`if(kactx->itr != NULL && funcctx->call_cntr < funcctx->max_calls)`. -/
def percall (lib : KmodLib) (funcctx : FuncCallContext) : Result :=
  match funcctx.user_fctx.itr, decide (funcctx.call_cntr < funcctx.max_calls) with
  | some itr, true => rowResult lib funcctx itr
  | _, _ => doneResult funcctx

/-- The function `kmod_alias_lookup` (lines 58-145).  `SRF_IS_FIRSTCALL()` is
`fn_extra == NULL`.  An error ends the statement, so nothing persists. -/
def kmod_alias_lookup (lib : KmodLib) (arg0 : String)
    (fn_extra : Option FuncCallContext) : Result :=
  match fn_extra with
  | none =>
    match firstcall lib arg0 with
    | .error (msg, tr) => { fn_extra := none, trace := tr, outcome := Outcome.error msg }
    | .ok (funcctx, tr) =>
      let r := percall lib funcctx
      { r with trace := tr ++ r.trace }
  | some funcctx => percall lib funcctx

/-! ## The caller -/

/-- The host's side of the row-producer protocol: at most `n` calls, each given
the slot the previous one left, stopping after the first call that does not
return a row. -/
def calls (lib : KmodLib) (arg0 : String) :
    Nat → Option FuncCallContext → List Result
  | 0, _ => []
  | n + 1, fx =>
    let r := kmod_alias_lookup lib arg0 fx
    match r.outcome with
    | Outcome.next _ => r :: calls lib arg0 n r.fn_extra
    | _ => [r]

/-- The outcomes of a sequence of calls: what the caller sees. -/
def outcomes (rs : List Result) : List Outcome := rs.map Result.outcome

/-- All library calls of a sequence of calls, in program order. -/
def traceOf : List Result → List Event
  | [] => []
  | r :: rs => r.trace ++ traceOf rs

/-! ## Observations on traces -/

/-- Whether the event gives a handle back to the library: the two calls of the
final branch. -/
def Event.isRelease : Event → Bool
  | Event.kmod_module_unref_list _ => true
  | Event.kmod_unref _ => true
  | _ => false

/-- The release calls of a trace, in order. -/
def releases (tr : List Event) : List Event := tr.filter Event.isRelease

/-- The number of handles the event acquires: a non-NULL connection from
`kmod_new`, a non-NULL list written by the lookup. -/
def Event.acquires : Event → Nat
  | Event.kmod_new (some _) => 1
  | Event.kmod_module_new_from_lookup _ _ _ (some _) => 1
  | _ => 0

/-- The number of handles the event releases: a non-NULL list or connection. -/
def Event.frees : Event → Nat
  | Event.kmod_module_unref_list (some _) => 1
  | Event.kmod_unref (some _) => 1
  | _ => 0

/-- The number of connection and list handles acquired in a trace. -/
def handles_acquired (tr : List Event) : Nat := (tr.map Event.acquires).sum

/-- The number of connection and list handles released in a trace. -/
def handles_released (tr : List Event) : Nat := (tr.map Event.frees).sum

/-- The change the event makes to the number of references the function holds
on the module `m`: `kmod_module_get_module` takes one, `kmod_module_unref`
drops one. -/
def Event.refDelta (m : Nat) : Event → Int
  | Event.kmod_module_get_module _ m' => if m' = m then 1 else 0
  | Event.kmod_module_unref m' => if m' = m then -1 else 0
  | _ => 0

/-- The references on the module `m` taken and not yet dropped at the end of a
trace. -/
def refs_held (tr : List Event) (m : Nat) : Int := (tr.map (Event.refDelta m)).sum

/-! ## Well-formed result lists -/

/-- The list structure starting at the node `itr` holds exactly the module
names `L`, in order, and then ends: the traversal that the library's
`kmod_list_foreach` performs. -/
def chain (lib : KmodLib) (list : Option Nat) : Option Nat → List String → Bool
  | none, [] => true
  | some n, s :: rest =>
    (lib.kmod_module_get_name (lib.kmod_module_get_module n) == s) &&
      chain lib list (lib.kmod_list_next list n) rest
  | _, _ => false

/-- The connection succeeds with the handle `c`, and the lookup of `arg0`
succeeds (status not negative) and returns the list `head`, which holds the
module names `L`. -/
def Serves (lib : KmodLib) (arg0 : String) (c : Nat) (head : Option Nat)
    (L : List String) : Prop :=
  lib.kmod_new = some c ∧ 0 ≤ (lib.kmod_module_new_from_lookup c arg0).1 ∧
    (lib.kmod_module_new_from_lookup c arg0).2 = head ∧ chain lib head head L = true

instance (lib : KmodLib) (arg0 : String) (c : Nat) (head : Option Nat)
    (L : List String) : Decidable (Serves lib arg0 c head L) := by
  unfold Serves; infer_instance

/-- Modelled from the spec: the C library is not part of the repository; this
is its `strerror` on the numbers used below.  A known error number has a
description, any other number (every negative one included) is reported as
unknown. -/
def strerror_model (n : Int) : String :=
  if n = 2 then "No such file or directory"
  else if n = 12 then "Cannot allocate memory"
  else if n = 22 then "Invalid argument"
  else if n = 38 then "Function not implemented"
  else "Unknown error " ++ toString n

/-- Modelled from the spec: the alias database library is an external
collaborator (`connect() → handle`, `lookup(handle, pattern) → ordered
list-of(module-record)`, `module-record → name`).  This instance connects with
the handle `c` and answers every lookup with `status` and the well-formed list
of the names `L`: node `i` holds module `i`, whose name is the `i`-th name, and
the successor of the last node is `NULL`. -/
def listLib (c : Nat) (status : Int) (L : List String) : KmodLib where
  kmod_new := some c
  kmod_module_new_from_lookup := fun _ _ => (status, if L = [] then none else some 0)
  kmod_module_get_module := fun itr => itr
  kmod_module_get_name := fun mod => L.getD mod ""
  kmod_list_next := fun _ curr => if curr + 1 < L.length then some (curr + 1) else none
  strerror := strerror_model

/-- Modelled from the spec: a library whose result list is corrupt: the
successor of every node is the first node again, so the traversal never
reaches `NULL`. -/
def cyclicLib : KmodLib where
  kmod_new := some 7
  kmod_module_new_from_lookup := fun _ _ => (0, some 0)
  kmod_module_get_module := fun itr => itr
  kmod_module_get_name := fun _ => "loop"
  kmod_list_next := fun _ _ => some 0
  strerror := strerror_model

/-- Modelled from the spec: a library whose connection cannot be acquired. -/
def noConnLib : KmodLib where
  kmod_new := none
  kmod_module_new_from_lookup := fun _ _ => (0, none)
  kmod_module_get_module := fun itr => itr
  kmod_module_get_name := fun _ => ""
  kmod_list_next := fun _ _ => none
  strerror := strerror_model

/-- The states the persistent slot can be in: empty before the first call, and
whatever a call leaves behind. -/
inductive Reachable (lib : KmodLib) (arg0 : String) : Option FuncCallContext → Prop
  | init : Reachable lib arg0 none
  | step {s : Option FuncCallContext} :
      Reachable lib arg0 s → Reachable lib arg0 (kmod_alias_lookup lib arg0 s).fn_extra

/-- The example of the header comment (lines 18-27). -/
def examplePattern : String := "pci:v00008086d00002653sv*sd*bc01sc01i*"

/-- The rows of the header comment's example. -/
def exampleList : List String := ["ahci", "ata_piix", "ata_generic", "ata_generic"]


/-- The facts about the slot that hold between the calls of one request: the
cap is `SRF_MAXCALLS`, the counter has not passed it, and the connection and
list handles are the ones the first call acquired. -/
def Inv (c : Nat) (head : Option Nat) (f : FuncCallContext) : Prop :=
  f.max_calls = SRF_MAXCALLS ∧ f.call_cntr ≤ SRF_MAXCALLS ∧
    f.user_fctx.kctx = some c ∧ f.user_fctx.list = head

/-- The result is that of a row-producing call made in a state of the request. -/
def IsRow (lib : KmodLib) (c : Nat) (head : Option Nat) (r : Result) : Prop :=
  ∃ f itr, Inv c head f ∧ f.call_cntr < SRF_MAXCALLS ∧ r = rowResult lib f itr

/-- The result is that of the final call made in a state of the request. -/
def IsDone (c : Nat) (head : Option Nat) (r : Result) : Prop :=
  ∃ f, Inv c head f ∧ r = doneResult f

/-- The function context the first-call block leaves behind when the
connection gives `c` and the lookup leaves `head` in the list. -/
def initState (c : Nat) (head : Option Nat) : FuncCallContext :=
  { call_cntr := 0, max_calls := SRF_MAXCALLS,
    user_fctx := { kctx := some c, list := head, itr := head } }

/-- The library calls of the first-call block when both succeed. -/
def initTrace (c : Nat) (arg0 : String) (err : Int) (head : Option Nat) : List Event :=
  [Event.kmod_new (some c), Event.kmod_module_new_from_lookup c arg0 err head]

/-- The result of a call whose first-call block made the calls `pre` before
the per-call part ran. -/
def addInit (pre : List Event) (r : Result) : Result :=
  { r with trace := pre ++ r.trace }

/-- The calls of a request, given the calls made from the state the first-call
block leaves: only the first of them runs the first-call block. -/
def withInit (pre : List Event) : List Result → List Result
  | [] => []
  | r :: rs => addInit pre r :: rs

/-- A result list longer than the cap: 34 distinct names. -/
def longList : List String :=
  ["m01", "m02", "m03", "m04", "m05", "m06", "m07", "m08", "m09", "m10",
   "m11", "m12", "m13", "m14", "m15", "m16", "m17", "m18", "m19", "m20",
   "m21", "m22", "m23", "m24", "m25", "m26", "m27", "m28", "m29", "m30",
   "m31", "m32", "m33", "m34"]

/-- A pattern with an unmatched bracket, which the library rejects. -/
def malformedPattern : String := "a[b"

/-- Modelled from the spec: a library whose connection succeeds (handle 1) and
whose lookup reports failure: the status is -22, the negated error number
`EINVAL`, and the list is left `NULL`. -/
def failingLib : KmodLib := listLib 1 (-22) []

/-! ## One call -/

theorem percall_row {lib : KmodLib} {f : FuncCallContext} {itr : Nat}
    (h1 : f.user_fctx.itr = some itr) (h2 : f.call_cntr < f.max_calls) :
    percall lib f = rowResult lib f itr := by
  unfold percall
  rw [h1]
  simp [h2]

theorem percall_null {lib : KmodLib} {f : FuncCallContext}
    (h : f.user_fctx.itr = none) : percall lib f = doneResult f := by
  unfold percall
  rw [h]

theorem percall_cap {lib : KmodLib} {f : FuncCallContext}
    (h : ¬ f.call_cntr < f.max_calls) : percall lib f = doneResult f := by
  unfold percall
  cases f.user_fctx.itr <;> simp [h]

theorem percall_cases (lib : KmodLib) (f : FuncCallContext) :
    (∃ itr, f.user_fctx.itr = some itr ∧ f.call_cntr < f.max_calls ∧
        percall lib f = rowResult lib f itr) ∨
      ((f.user_fctx.itr = none ∨ ¬ f.call_cntr < f.max_calls) ∧
        percall lib f = doneResult f) := by
  by_cases hc : f.call_cntr < f.max_calls
  · cases hi : f.user_fctx.itr with
    | none => exact Or.inr ⟨Or.inl rfl, percall_null hi⟩
    | some itr => exact Or.inl ⟨itr, rfl, hc, percall_row hi hc⟩
  · exact Or.inr ⟨Or.inr hc, percall_cap hc⟩

theorem firstcall_ok {lib : KmodLib} (arg0 : String) {c : Nat}
    (hnew : lib.kmod_new = some c)
    (herr : 0 ≤ (lib.kmod_module_new_from_lookup c arg0).1) :
    firstcall lib arg0 =
      .ok ({ call_cntr := 0, max_calls := SRF_MAXCALLS,
             user_fctx := { kctx := some c,
                            list := (lib.kmod_module_new_from_lookup c arg0).2,
                            itr := (lib.kmod_module_new_from_lookup c arg0).2 } },
           [Event.kmod_new (some c),
            Event.kmod_module_new_from_lookup c arg0
              (lib.kmod_module_new_from_lookup c arg0).1
              (lib.kmod_module_new_from_lookup c arg0).2]) := by
  unfold firstcall
  rw [hnew]
  have h : ¬ (lib.kmod_module_new_from_lookup c arg0).1 < 0 := not_lt.mpr herr
  simp only [h, if_false]
  cases (lib.kmod_module_new_from_lookup c arg0).2 <;> simp

theorem rowResult_next_inv (lib : KmodLib) {c : Nat} {head : Option Nat}
    {f : FuncCallContext} (itr : Nat) (hinv : Inv c head f)
    (hlt : f.call_cntr < SRF_MAXCALLS) :
    ∃ f1, (rowResult lib f itr).fn_extra = some f1 ∧ Inv c head f1 ∧
      f1.call_cntr = f.call_cntr + 1 ∧
      f1.user_fctx.itr = lib.kmod_list_next head itr := by
  obtain ⟨h1, h2, h3, h4⟩ := hinv
  have hmod : (f.call_cntr + 1) % UINT64_MOD = f.call_cntr + 1 := by
    apply Nat.mod_eq_of_lt
    unfold SRF_MAXCALLS at hlt
    unfold UINT64_MOD
    omega
  refine ⟨_, rfl, ⟨h1, ?_, h3, h4⟩, hmod, ?_⟩
  · show (f.call_cntr + 1) % UINT64_MOD ≤ SRF_MAXCALLS
    rw [hmod]
    exact hlt
  · show lib.kmod_list_next f.user_fctx.list itr = lib.kmod_list_next head itr
    rw [h4]

/-! ## The caller's loop -/

theorem calls_next {lib : KmodLib} {arg0 : String} {fx : Option FuncCallContext}
    {s : String} (n : Nat) (h : (kmod_alias_lookup lib arg0 fx).outcome = Outcome.next s) :
    calls lib arg0 (n + 1) fx =
      kmod_alias_lookup lib arg0 fx ::
        calls lib arg0 n (kmod_alias_lookup lib arg0 fx).fn_extra := by
  simp only [calls, h]

theorem calls_done {lib : KmodLib} {arg0 : String} {fx : Option FuncCallContext}
    (n : Nat) (h : (kmod_alias_lookup lib arg0 fx).outcome = Outcome.done) :
    calls lib arg0 (n + 1) fx = [kmod_alias_lookup lib arg0 fx] := by
  simp only [calls, h]

theorem calls_error {lib : KmodLib} {arg0 : String} {fx : Option FuncCallContext}
    (msg : String) (n : Nat)
    (h : (kmod_alias_lookup lib arg0 fx).outcome = Outcome.error msg) :
    calls lib arg0 (n + 1) fx = [kmod_alias_lookup lib arg0 fx] := by
  simp only [calls, h]

/-- The calls a caller makes when it stops after `k` calls are the first `k` of
the calls it makes when it goes on. -/
theorem calls_take (lib : KmodLib) (arg0 : String) :
    ∀ (k n : Nat) (fx : Option FuncCallContext), k ≤ n →
      calls lib arg0 k fx = (calls lib arg0 n fx).take k := by
  intro k
  induction k with
  | zero => intro n fx _; simp [calls]
  | succ k ih =>
    intro n fx hkn
    obtain ⟨n, rfl⟩ : ∃ m, n = m + 1 := ⟨n - 1, by omega⟩
    cases ho : (kmod_alias_lookup lib arg0 fx).outcome with
    | next s =>
      rw [calls_next k ho, calls_next n ho, List.take_succ_cons, ← ih n _ (by omega)]
    | done => rw [calls_done k ho, calls_done n ho]; simp
    | error msg => rw [calls_error msg k ho, calls_error msg n ho]; simp

theorem chain_nil {lib : KmodLib} {list itr : Option Nat}
    (h : chain lib list itr [] = true) : itr = none := by
  cases itr with
  | none => rfl
  | some n => simp [chain] at h

theorem chain_cons {lib : KmodLib} {list itr : Option Nat} {s : String}
    {rest : List String} (h : chain lib list itr (s :: rest) = true) :
    ∃ n, itr = some n ∧
      lib.kmod_module_get_name (lib.kmod_module_get_module n) = s ∧
      chain lib list (lib.kmod_list_next list n) rest = true := by
  cases itr with
  | none => simp [chain] at h
  | some n =>
    simp only [chain, Bool.and_eq_true, beq_iff_eq] at h
    exact ⟨n, rfl, h.1, h.2⟩

/-- From a state of the request whose position marker heads a well-formed
chain of the names `L`: the caller gets the names up to the cap, one per call,
and then the final call. -/
theorem chain_run (lib : KmodLib) (arg0 : String) (c : Nat) (head : Option Nat) :
    ∀ (L : List String) (f : FuncCallContext) (n : Nat),
      Inv c head f → chain lib head f.user_fctx.itr L = true →
      min L.length (SRF_MAXCALLS - f.call_cntr) + 1 ≤ n →
      ∃ rows last, calls lib arg0 n (some f) = rows ++ [last] ∧
        outcomes rows = (L.take (SRF_MAXCALLS - f.call_cntr)).map Outcome.next ∧
        (∀ r ∈ rows, IsRow lib c head r) ∧ IsDone c head last := by
  intro L
  induction L with
  | nil =>
    intro f n hinv hch hn
    obtain ⟨n, rfl⟩ : ∃ m, n = m + 1 := ⟨n - 1, by omega⟩
    have hp : kmod_alias_lookup lib arg0 (some f) = doneResult f :=
      percall_null (chain_nil hch)
    refine ⟨[], doneResult f, ?_, by simp [outcomes], by simp, f, hinv, rfl⟩
    rw [calls_done n (by rw [hp]; rfl), hp]
    rfl
  | cons s rest ih =>
    intro f n hinv hch hn
    obtain ⟨n, rfl⟩ : ∃ m, n = m + 1 := ⟨n - 1, by omega⟩
    obtain ⟨node, hitr, hname, hrest⟩ := chain_cons hch
    by_cases hlt : f.call_cntr < SRF_MAXCALLS
    · have hp : kmod_alias_lookup lib arg0 (some f) = rowResult lib f node :=
        percall_row hitr (by rw [hinv.1]; exact hlt)
      obtain ⟨f1, hf1, hinv1, hcnt1, hitr1⟩ := rowResult_next_inv lib node hinv hlt
      have hlen : min rest.length (SRF_MAXCALLS - f1.call_cntr) + 1 ≤ n := by
        rw [hcnt1]
        simp only [List.length_cons] at hn
        omega
      obtain ⟨rows, last, hcalls, hout, hrows, hlast⟩ :=
        ih f1 n hinv1 (by rw [hitr1]; exact hrest) hlen
      refine ⟨rowResult lib f node :: rows, last, ?_, ?_, ?_, hlast⟩
      · rw [calls_next n (s := s) (by rw [hp]; simp [rowResult, hname]), hp, hf1, hcalls]
        rfl
      · have hk : SRF_MAXCALLS - f.call_cntr = (SRF_MAXCALLS - f1.call_cntr) + 1 := by
          rw [hcnt1]; omega
        rw [hk, List.take_succ_cons]
        simp only [outcomes, List.map_cons] at hout ⊢
        rw [hout]
        simp [rowResult, hname]
      · intro r hr
        rcases List.mem_cons.mp hr with h | h
        · exact ⟨f, node, hinv, hlt, h⟩
        · exact hrows r h
    · have hp : kmod_alias_lookup lib arg0 (some f) = doneResult f :=
        percall_cap (by rw [hinv.1]; exact hlt)
      have hz : SRF_MAXCALLS - f.call_cntr = 0 := by omega
      refine ⟨[], doneResult f, ?_, by simp [outcomes, hz], by simp, f, hinv, rfl⟩
      rw [calls_done n (by rw [hp]; rfl), hp]
      rfl

/-- From any state of the request, whatever the list structure: the caller
gets rows only while the counter is below the cap, and then the final call. -/
theorem state_run (lib : KmodLib) (arg0 : String) (c : Nat) (head : Option Nat) :
    ∀ (n : Nat) (f : FuncCallContext),
      Inv c head f → SRF_MAXCALLS + 1 ≤ n + f.call_cntr →
      ∃ rows last, calls lib arg0 n (some f) = rows ++ [last] ∧
        rows.length + f.call_cntr ≤ SRF_MAXCALLS ∧
        (∀ r ∈ rows, IsRow lib c head r) ∧ IsDone c head last := by
  intro n
  induction n with
  | zero =>
    intro f hinv hn
    have := hinv.2.1
    omega
  | succ n ih =>
    intro f hinv hn
    rcases percall_cases lib f with ⟨node, _, hlt, hp⟩ | ⟨_, hp⟩
    · have hlt1 : f.call_cntr < SRF_MAXCALLS := by rw [← hinv.1]; exact hlt
      obtain ⟨f1, hf1, hinv1, hcnt1, _⟩ := rowResult_next_inv lib node hinv hlt1
      obtain ⟨rows, last, hcalls, hlen, hrows, hlast⟩ := ih f1 hinv1 (by rw [hcnt1]; omega)
      refine ⟨rowResult lib f node :: rows, last, ?_, ?_, ?_, hlast⟩
      · have hp1 : kmod_alias_lookup lib arg0 (some f) = rowResult lib f node := hp
        rw [calls_next n (s := lib.kmod_module_get_name (lib.kmod_module_get_module node))
          (by rw [hp1]; rfl), hp1, hf1, hcalls]
        rfl
      · rw [hcnt1] at hlen
        simp only [List.length_cons]
        omega
      · intro r hr
        rcases List.mem_cons.mp hr with h | h
        · exact ⟨f, node, hinv, hlt1, h⟩
        · exact hrows r h
    · have hp1 : kmod_alias_lookup lib arg0 (some f) = doneResult f := hp
      refine ⟨[], doneResult f, ?_, ?_, by simp, f, hinv, rfl⟩
      · rw [calls_done n (by rw [hp1]; rfl), hp1]
        rfl
      · simpa using hinv.2.1

/-! ## The first call -/

theorem lookup_first {lib : KmodLib} (arg0 : String) {c : Nat}
    (hnew : lib.kmod_new = some c)
    (herr : 0 ≤ (lib.kmod_module_new_from_lookup c arg0).1) :
    kmod_alias_lookup lib arg0 none =
      addInit (initTrace c arg0 (lib.kmod_module_new_from_lookup c arg0).1
          (lib.kmod_module_new_from_lookup c arg0).2)
        (percall lib (initState c (lib.kmod_module_new_from_lookup c arg0).2)) := by
  simp only [kmod_alias_lookup, firstcall_ok arg0 hnew herr]
  rfl

theorem initState_inv (c : Nat) (head : Option Nat) : Inv c head (initState c head) :=
  ⟨rfl, Nat.zero_le _, rfl, rfl⟩

theorem calls_first {lib : KmodLib} {arg0 : String} {c : Nat}
    (hnew : lib.kmod_new = some c)
    (herr : 0 ≤ (lib.kmod_module_new_from_lookup c arg0).1) (n : Nat) :
    calls lib arg0 n none =
      withInit (initTrace c arg0 (lib.kmod_module_new_from_lookup c arg0).1
          (lib.kmod_module_new_from_lookup c arg0).2)
        (calls lib arg0 n (some (initState c (lib.kmod_module_new_from_lookup c arg0).2))) := by
  cases n with
  | zero => rfl
  | succ n =>
    have h1 := lookup_first arg0 hnew herr
    have h2 : kmod_alias_lookup lib arg0
        (some (initState c (lib.kmod_module_new_from_lookup c arg0).2)) =
        percall lib (initState c (lib.kmod_module_new_from_lookup c arg0).2) := rfl
    cases ho : (percall lib (initState c (lib.kmod_module_new_from_lookup c arg0).2)).outcome with
    | next s =>
      rw [calls_next n (s := s) (by rw [h1]; exact ho), calls_next n (s := s) (by rw [h2]; exact ho),
        h1, h2]
      rfl
    | done =>
      rw [calls_done n (by rw [h1]; exact ho), calls_done n (by rw [h2]; exact ho), h1, h2]
      rfl
    | error msg =>
      rw [calls_error msg n (by rw [h1]; exact ho),
        calls_error msg n (by rw [h2]; exact ho), h1, h2]
      rfl

theorem outcomes_withInit (pre : List Event) (rs : List Result) :
    outcomes (withInit pre rs) = outcomes rs := by
  cases rs <;> rfl

theorem length_withInit (pre : List Event) (rs : List Result) :
    (withInit pre rs).length = rs.length := by
  cases rs <;> rfl

theorem traceOf_withInit (pre : List Event) (rs : List Result) (h : rs ≠ []) :
    traceOf (withInit pre rs) = pre ++ traceOf rs := by
  cases rs with
  | nil => exact absurd rfl h
  | cons r rs => simp [withInit, addInit, traceOf]

theorem mem_withInit {pre : List Event} {rs : List Result} {r : Result}
    (h : r ∈ withInit pre rs) : ∃ r0 ∈ rs, r = r0 ∨ r = addInit pre r0 := by
  cases rs with
  | nil => simp [withInit] at h
  | cons a rs =>
    rcases List.mem_cons.mp h with h | h
    · exact ⟨a, List.mem_cons_self _ _, Or.inr h⟩
    · exact ⟨r, List.mem_cons_of_mem _ h, Or.inl rfl⟩

/-! ## Traces -/

theorem traceOf_append (a b : List Result) : traceOf (a ++ b) = traceOf a ++ traceOf b := by
  induction a with
  | nil => rfl
  | cons r a ih => simp [traceOf, ih]

theorem releases_append (a b : List Event) : releases (a ++ b) = releases a ++ releases b := by
  simp [releases]

theorem handles_acquired_append (a b : List Event) :
    handles_acquired (a ++ b) = handles_acquired a + handles_acquired b := by
  simp [handles_acquired]

theorem handles_released_append (a b : List Event) :
    handles_released (a ++ b) = handles_released a + handles_released b := by
  simp [handles_released]

theorem refs_held_append (a b : List Event) (m : Nat) :
    refs_held (a ++ b) m = refs_held a m + refs_held b m := by
  simp [refs_held]

theorem rowResult_observed (lib : KmodLib) (f : FuncCallContext) (itr m : Nat) :
    releases (rowResult lib f itr).trace = [] ∧
      handles_acquired (rowResult lib f itr).trace = 0 ∧
      handles_released (rowResult lib f itr).trace = 0 ∧
      refs_held (rowResult lib f itr).trace m = 0 := by
  refine ⟨rfl, rfl, rfl, ?_⟩
  by_cases h : lib.kmod_module_get_module itr = m <;>
    simp [rowResult, refs_held, Event.refDelta, h]

theorem initTrace_observed (c : Nat) (arg0 : String) (err : Int) (head : Option Nat)
    (m : Nat) :
    releases (initTrace c arg0 err head) = [] ∧
      handles_released (initTrace c arg0 err head) = 0 ∧
      refs_held (initTrace c arg0 err head) m = 0 ∧
      handles_acquired (initTrace c arg0 err head) = 1 + (if head = none then 0 else 1) := by
  refine ⟨rfl, rfl, rfl, ?_⟩
  cases head <;> rfl

theorem rows_observed {lib : KmodLib} {c : Nat} {head : Option Nat} :
    ∀ (rows : List Result), (∀ r ∈ rows, IsRow lib c head r) →
      releases (traceOf rows) = [] ∧ handles_acquired (traceOf rows) = 0 ∧
        handles_released (traceOf rows) = 0 := by
  intro rows
  induction rows with
  | nil => intro _; exact ⟨rfl, rfl, rfl⟩
  | cons r rows ih =>
    intro h
    obtain ⟨f, itr, _, _, rfl⟩ := h r (List.mem_cons_self _ _)
    obtain ⟨h1, h2, h3⟩ := ih (fun x hx => h x (List.mem_cons_of_mem _ hx))
    obtain ⟨g1, g2, g3, _⟩ := rowResult_observed lib f itr 0
    simp [traceOf, releases_append, handles_acquired_append, handles_released_append,
      h1, h2, h3, g1, g2, g3]

theorem done_released {c : Nat} {head : Option Nat} {last : Result}
    (h : IsDone c head last) :
    last.outcome = Outcome.done ∧ last.fn_extra = none ∧
      releases last.trace = [Event.kmod_module_unref_list head, Event.kmod_unref (some c)] ∧
      handles_acquired last.trace = 0 ∧
      handles_released last.trace = 1 + (if head = none then 0 else 1) := by
  obtain ⟨f, ⟨_, _, h3, h4⟩, rfl⟩ := h
  refine ⟨rfl, rfl, ?_, rfl, ?_⟩
  · simp [doneResult, releases, Event.isRelease, h3, h4]
  · simp only [doneResult, handles_released, h3, h4]
    cases head <;> rfl

/-! ## A whole request -/

/-- The request from its first call on, for a well-formed result list: the
calls made from the state the first-call block leaves are the rows up to the
cap and the final call. -/
theorem request_run {lib : KmodLib} {arg0 : String} {c : Nat} {head : Option Nat}
    {L : List String} (hs : Serves lib arg0 c head L) (n : Nat)
    (hn : min L.length 32 + 1 ≤ n) :
    ∃ rows last,
      calls lib arg0 n none =
        withInit (initTrace c arg0 (lib.kmod_module_new_from_lookup c arg0).1 head)
          (rows ++ [last]) ∧
      calls lib arg0 n (some (initState c head)) = rows ++ [last] ∧
      outcomes rows = (L.take 32).map Outcome.next ∧
      (∀ r ∈ rows, IsRow lib c head r) ∧ IsDone c head last := by
  obtain ⟨hnew, herr, hhead, hch⟩ := hs
  subst hhead
  obtain ⟨rows, last, hcalls, hout, hrows, hlast⟩ :=
    chain_run lib arg0 c _ L (initState c _) n (initState_inv c _) hch
      (by simpa [initState, SRF_MAXCALLS] using hn)
  refine ⟨rows, last, ?_, hcalls, ?_, hrows, hlast⟩
  · rw [calls_first hnew herr n, hcalls]
  · simpa [initState, SRF_MAXCALLS] using hout

theorem request_outcomes {lib : KmodLib} {arg0 : String} {c : Nat} {head : Option Nat}
    {L : List String} (hs : Serves lib arg0 c head L) (n : Nat)
    (hn : min L.length 32 + 1 ≤ n) :
    outcomes (calls lib arg0 n none) = (L.take 32).map Outcome.next ++ [Outcome.done] := by
  obtain ⟨rows, last, hcalls, _, hout, _, hlast⟩ := request_run hs n hn
  rw [hcalls, outcomes_withInit]
  simp only [outcomes, List.map_append, List.map_cons, List.map_nil] at hout ⊢
  rw [hout, (done_released hlast).1]

theorem calls_first_serves {lib : KmodLib} {arg0 : String} {c : Nat}
    {head : Option Nat} {L : List String} (hs : Serves lib arg0 c head L) (n : Nat) :
    calls lib arg0 n none =
      withInit (initTrace c arg0 (lib.kmod_module_new_from_lookup c arg0).1 head)
        (calls lib arg0 n (some (initState c head))) := by
  obtain ⟨hnew, herr, hhead, _⟩ := hs
  subst hhead
  exact calls_first hnew herr n

theorem row_outcome {lib : KmodLib} {c : Nat} {head : Option Nat} {r : Result}
    (h : IsRow lib c head r) : ∃ s, r.outcome = Outcome.next s := by
  obtain ⟨f, itr, _, _, rfl⟩ := h
  exact ⟨_, rfl⟩

/-- Where a call of the request releases: not at all when it returns a row,
the list and then the connection when it returns `Done`. -/
theorem call_releases (lib : KmodLib) {c : Nat} {head : Option Nat} {r r0 : Result}
    (pre : List Event) (hpre : releases pre = [])
    (h0 : IsRow lib c head r0 ∨ IsDone c head r0) (hr : r = r0 ∨ r = addInit pre r0) :
    (∀ s, r.outcome = Outcome.next s → releases r.trace = []) ∧
      (r.outcome = Outcome.done →
        releases r.trace = [Event.kmod_module_unref_list head, Event.kmod_unref (some c)]) := by
  have key : releases r.trace = releases r0.trace ∧ r.outcome = r0.outcome := by
    rcases hr with rfl | rfl
    · exact ⟨rfl, rfl⟩
    · exact ⟨by simp [addInit, releases_append, hpre], rfl⟩
  rw [key.1, key.2]
  rcases h0 with h | h
  · obtain ⟨f, itr, _, _, rfl⟩ := h
    exact ⟨fun _ _ => rfl, fun hd => by simp [rowResult] at hd⟩
  · obtain ⟨h1, _, h3, _⟩ := done_released h
    exact ⟨fun s hs => (by rw [h1] at hs; cases hs), fun _ => h3⟩

/-- The three ways the first-call block ends. -/
theorem firstcall_cases (lib : KmodLib) (arg0 : String) :
    (lib.kmod_new = none ∧
        firstcall lib arg0 = .error ("kmod_new() failed", [Event.kmod_new none])) ∨
      (∃ c, lib.kmod_new = some c ∧ (lib.kmod_module_new_from_lookup c arg0).1 < 0 ∧
        firstcall lib arg0 =
          .error ("kmod_module_new_from_lookup() failed: " ++
              lib.strerror (lib.kmod_module_new_from_lookup c arg0).1,
            initTrace c arg0 (lib.kmod_module_new_from_lookup c arg0).1
              (lib.kmod_module_new_from_lookup c arg0).2)) ∨
      (∃ c, lib.kmod_new = some c ∧ 0 ≤ (lib.kmod_module_new_from_lookup c arg0).1 ∧
        firstcall lib arg0 =
          .ok (initState c (lib.kmod_module_new_from_lookup c arg0).2,
            initTrace c arg0 (lib.kmod_module_new_from_lookup c arg0).1
              (lib.kmod_module_new_from_lookup c arg0).2)) := by
  cases hnew : lib.kmod_new with
  | none =>
    left
    exact ⟨rfl, by simp only [firstcall, hnew]⟩
  | some c =>
    right
    by_cases herr : (lib.kmod_module_new_from_lookup c arg0).1 < 0
    · left
      exact ⟨c, rfl, herr, by simp only [firstcall, hnew, herr, if_true]; rfl⟩
    · right
      exact ⟨c, rfl, not_lt.mp herr, firstcall_ok arg0 hnew (not_lt.mp herr)⟩

/-- The first call ends in the lookup error exactly when the status is
negative, and the text it then carries is `strerror` of that status. -/
theorem lookup_error_iff (lib : KmodLib) (arg0 : String) (c : Nat)
    (hnew : lib.kmod_new = some c) :
    (lib.kmod_module_new_from_lookup c arg0).1 < 0 ↔
      (kmod_alias_lookup lib arg0 none).outcome =
        Outcome.error ("kmod_module_new_from_lookup() failed: " ++
          lib.strerror (lib.kmod_module_new_from_lookup c arg0).1) := by
  rcases firstcall_cases lib arg0 with ⟨h0, _⟩ | ⟨c1, h1, herr, hfc⟩ | ⟨c1, h1, herr, hfc⟩
  · rw [hnew] at h0
    cases h0
  · rw [hnew] at h1
    cases h1
    simp only [kmod_alias_lookup, hfc, herr]
  · rw [hnew] at h1
    cases h1
    have hno : ¬ (lib.kmod_module_new_from_lookup c arg0).1 < 0 := not_lt.mpr herr
    simp only [kmod_alias_lookup, hfc, hno, false_iff]
    rcases percall_cases lib (initState c (lib.kmod_module_new_from_lookup c arg0).2)
      with ⟨node, _, _, hp⟩ | ⟨_, hp⟩
    · rw [hp]
      simp [rowResult]
    · rw [hp]
      simp [doneResult]

theorem firstcall_refs (lib : KmodLib) (arg0 : String) (m : Nat) :
    (∀ f tr, firstcall lib arg0 = .ok (f, tr) → refs_held tr m = 0) ∧
      (∀ msg tr, firstcall lib arg0 = .error (msg, tr) → refs_held tr m = 0) := by
  rcases firstcall_cases lib arg0 with ⟨_, h⟩ | ⟨c, _, _, h⟩ | ⟨c, _, _, h⟩ <;>
    rw [h] <;> constructor <;> intro a tr heq <;> cases heq <;> rfl

theorem cntr_succ {k : Nat} (h : k < SRF_MAXCALLS) :
    (k + 1) % UINT64_MOD = k + 1 := by
  apply Nat.mod_eq_of_lt
  unfold SRF_MAXCALLS at h
  unfold UINT64_MOD
  omega

theorem percall_bound {lib : KmodLib} {f f1 : FuncCallContext}
    (h1 : f.max_calls = SRF_MAXCALLS)
    (h : (percall lib f).fn_extra = some f1) :
    f1.max_calls = SRF_MAXCALLS ∧ f1.call_cntr ≤ SRF_MAXCALLS := by
  rcases percall_cases lib f with ⟨node, _, hlt, hp⟩ | ⟨_, hp⟩
  · rw [hp] at h
    have hlt1 : f.call_cntr < SRF_MAXCALLS := by rw [← h1]; exact hlt
    simp only [rowResult, Option.some.injEq] at h
    subst h
    refine ⟨h1, ?_⟩
    show (f.call_cntr + 1) % UINT64_MOD ≤ SRF_MAXCALLS
    rw [cntr_succ hlt1]
    exact hlt1
  · rw [hp] at h
    cases h

/-- The bound on the counter holds in every state the slot can be in. -/
theorem reachable_bound {lib : KmodLib} {arg0 : String} {s : Option FuncCallContext}
    (hr : Reachable lib arg0 s) :
    ∀ f, s = some f → f.max_calls = SRF_MAXCALLS ∧ f.call_cntr ≤ SRF_MAXCALLS := by
  induction hr with
  | init => intro f h; cases h
  | @step s _ ih =>
    intro f1 h
    cases s with
    | some f => exact percall_bound (ih f rfl).1 h
    | none =>
      rcases firstcall_cases lib arg0 with ⟨_, hfc⟩ | ⟨c, _, _, hfc⟩ | ⟨c, _, _, hfc⟩
      · simp only [kmod_alias_lookup, hfc] at h
        cases h
      · simp only [kmod_alias_lookup, hfc] at h
        cases h
      · simp only [kmod_alias_lookup, hfc] at h
        exact percall_bound (f := initState c _) rfl h

theorem percall_refs (lib : KmodLib) (f : FuncCallContext) (m : Nat) :
    refs_held (percall lib f).trace m = 0 := by
  rcases percall_cases lib f with ⟨node, _, _, hp⟩ | ⟨_, hp⟩
  · rw [hp]; exact (rowResult_observed lib f node m).2.2.2
  · rw [hp]; rfl

theorem lookup_refs (lib : KmodLib) (arg0 : String) (fx : Option FuncCallContext)
    (m : Nat) : refs_held (kmod_alias_lookup lib arg0 fx).trace m = 0 := by
  cases fx with
  | some f => exact percall_refs lib f m
  | none =>
    simp only [kmod_alias_lookup]
    cases hfc : firstcall lib arg0 with
    | error e =>
      obtain ⟨msg, tr⟩ := e
      exact (firstcall_refs lib arg0 m).2 msg tr hfc
    | ok v =>
      obtain ⟨f, tr⟩ := v
      simp only [refs_held_append,
        (firstcall_refs lib arg0 m).1 f tr hfc, percall_refs, add_zero]

theorem calls_refs (lib : KmodLib) (arg0 : String) (m : Nat) :
    ∀ (k : Nat) (fx : Option FuncCallContext),
      refs_held (traceOf (calls lib arg0 k fx)) m = 0 := by
  intro k
  induction k with
  | zero => intro fx; rfl
  | succ k ih =>
    intro fx
    cases ho : (kmod_alias_lookup lib arg0 fx).outcome with
    | next s =>
      rw [calls_next k ho]
      simp only [traceOf, refs_held_append, lookup_refs, ih, add_zero]
    | done =>
      rw [calls_done k ho]
      simp only [traceOf, refs_held_append, lookup_refs, List.append_nil]
    | error msg =>
      rw [calls_error msg k ho]
      simp only [traceOf, refs_held_append, lookup_refs, List.append_nil]

/-! ## The claims -/

/-- C1: when the connection and the lookup succeed and the result list `L` has
at most 32 names, a caller that calls until `Done` makes exactly
`L.length + 1` calls (any allowance of at least that many calls gives the same
run): the first `L.length` calls return the names of `L` in order, duplicates
included, and the last call returns `Done`. -/
theorem lookup_yields_list_then_done (lib : KmodLib) (arg0 : String) (c : Nat)
    (head : Option Nat) (L : List String) (n : Nat)
    (hs : Serves lib arg0 c head L) (hN : L.length ≤ 32) (hn : L.length + 1 ≤ n) :
    (calls lib arg0 n none).length = L.length + 1 ∧
      outcomes (calls lib arg0 n none) = L.map Outcome.next ++ [Outcome.done] := by
  have hout := request_outcomes hs n (by omega)
  rw [List.take_of_length_le hN] at hout
  refine ⟨?_, hout⟩
  have hlen := congrArg List.length hout
  simpa [outcomes] using hlen

/-- C1 at the header comment's example: four rows, duplicates preserved, then
`Done`, in five calls. -/
theorem lookup_yields_list_then_done_witness :
    (calls (listLib 1 0 exampleList) examplePattern 5 none).length = 5 ∧
      outcomes (calls (listLib 1 0 exampleList) examplePattern 5 none) =
        [Outcome.next "ahci", Outcome.next "ata_piix", Outcome.next "ata_generic",
         Outcome.next "ata_generic", Outcome.done] :=
  lookup_yields_list_then_done (listLib 1 0 exampleList) examplePattern 1 (some 0)
    exampleList 5 (by decide) (by decide) (by decide)

/-- C2: when the result list `L` has more than 32 names, a caller that calls
until `Done` makes exactly 33 calls: 32 rows, the first 32 names of `L` in
order, then `Done`; no call ends in an error.  What the caller sees depends on
the first 32 names only: any other successful lookup whose list agrees with `L`
on them (whether it is longer than 32 or not) gives the same outcomes. -/
theorem lookup_truncates_at_cap (lib : KmodLib) (arg0 : String) (c : Nat)
    (head : Option Nat) (L : List String) (n : Nat)
    (hs : Serves lib arg0 c head L) (hN : 32 < L.length) (hn : 33 ≤ n) :
    (calls lib arg0 n none).length = 33 ∧
      outcomes (calls lib arg0 n none) =
        (L.take 32).map Outcome.next ++ [Outcome.done] ∧
      ∀ (lib2 : KmodLib) (c2 : Nat) (head2 : Option Nat) (L2 : List String),
        Serves lib2 arg0 c2 head2 L2 → L2.take 32 = L.take 32 →
        outcomes (calls lib2 arg0 n none) = outcomes (calls lib arg0 n none) := by
  have hout := request_outcomes hs n (by omega)
  refine ⟨?_, hout, ?_⟩
  · have hlen := congrArg List.length hout
    simp only [outcomes, List.length_map, List.length_append, List.length_take,
      List.length_singleton] at hlen
    omega
  · intro lib2 c2 head2 L2 hs2 htake
    rw [hout, request_outcomes hs2 n (by omega), htake]

/-- C2 at a list of 34 names: 33 calls, the first 32 names, then `Done`. -/
theorem lookup_truncates_at_cap_witness :
    (calls (listLib 1 0 longList) examplePattern 33 none).length = 33 ∧
      outcomes (calls (listLib 1 0 longList) examplePattern 33 none) =
        (longList.take 32).map Outcome.next ++ [Outcome.done] :=
  have h := lookup_truncates_at_cap (listLib 1 0 longList) examplePattern 1 (some 0)
    longList 33 (by decide) (by decide) (by decide)
  ⟨h.1, h.2.1⟩

/-- C3: when the connection succeeds and the lookup succeeds leaving the list
`NULL`, the first-call block sets the position marker to `NULL`, and the very
first call returns `Done` without a row, having called
`kmod_module_unref_list` on the `NULL` list and `kmod_unref` on the handle that
`kmod_new` returned. -/
theorem empty_result_done_and_released (lib : KmodLib) (arg0 : String) (c : Nat)
    (n : Nat) (hnew : lib.kmod_new = some c)
    (herr : 0 ≤ (lib.kmod_module_new_from_lookup c arg0).1)
    (hempty : (lib.kmod_module_new_from_lookup c arg0).2 = none) :
    (∃ f tr, firstcall lib arg0 = .ok (f, tr) ∧ f.user_fctx.itr = none) ∧
      kmod_alias_lookup lib arg0 none =
        { fn_extra := none,
          trace := [Event.kmod_new (some c),
                    Event.kmod_module_new_from_lookup c arg0
                      (lib.kmod_module_new_from_lookup c arg0).1 none,
                    Event.kmod_module_unref_list none,
                    Event.kmod_unref (some c)],
          outcome := Outcome.done } ∧
      outcomes (calls lib arg0 (n + 1) none) = [Outcome.done] := by
  have hfirst := firstcall_ok arg0 hnew herr
  have hcall := lookup_first arg0 hnew herr
  rw [hempty] at hfirst hcall
  have hp : percall lib (initState c none) = doneResult (initState c none) :=
    percall_null rfl
  rw [hp] at hcall
  refine ⟨⟨_, _, hfirst, rfl⟩, ?_, ?_⟩
  · rw [hcall]; rfl
  · rw [calls_done n (by rw [hcall]; rfl), hcall]; rfl

/-- C3 at a library that answers the example pattern with no match. -/
theorem empty_result_done_and_released_witness :
    kmod_alias_lookup (listLib 1 0 []) examplePattern none =
      { fn_extra := none,
        trace := [Event.kmod_new (some 1),
                  Event.kmod_module_new_from_lookup 1 examplePattern 0 none,
                  Event.kmod_module_unref_list none,
                  Event.kmod_unref (some 1)],
        outcome := Outcome.done } :=
  (empty_result_done_and_released (listLib 1 0 []) examplePattern 1 0 rfl
    (by decide) rfl).2.1

/-- C4: when `kmod_new` returns `NULL`, the first call ends with the error
"kmod_new() failed" having made no other library call (the lookup is not
invoked, no per-call step runs), the request consists of that one call, which
returns neither a row nor `Done`, and no handle was acquired or released. -/
theorem connect_failure_aborts (lib : KmodLib) (arg0 : String) (n : Nat)
    (hnew : lib.kmod_new = none) :
    kmod_alias_lookup lib arg0 none =
        { fn_extra := none, trace := [Event.kmod_new none],
          outcome := Outcome.error "kmod_new() failed" } ∧
      outcomes (calls lib arg0 (n + 1) none) = [Outcome.error "kmod_new() failed"] ∧
      handles_acquired (traceOf (calls lib arg0 (n + 1) none)) = 0 ∧
      handles_released (traceOf (calls lib arg0 (n + 1) none)) = 0 := by
  have hcall : kmod_alias_lookup lib arg0 none =
      { fn_extra := none, trace := [Event.kmod_new none],
        outcome := Outcome.error "kmod_new() failed" } := by
    simp only [kmod_alias_lookup, firstcall, hnew]
  have hcalls : calls lib arg0 (n + 1) none = [kmod_alias_lookup lib arg0 none] :=
    calls_error "kmod_new() failed" n (by rw [hcall])
  rw [hcalls, hcall]
  exact ⟨rfl, rfl, rfl, rfl⟩

/-- C4 at a library whose connection cannot be acquired. -/
theorem connect_failure_aborts_witness :
    outcomes (calls noConnLib examplePattern 5 none) =
        [Outcome.error "kmod_new() failed"] ∧
      handles_acquired (traceOf (calls noConnLib examplePattern 5 none)) = 0 ∧
      handles_released (traceOf (calls noConnLib examplePattern 5 none)) = 0 :=
  (connect_failure_aborts noConnLib examplePattern 4 rfl).2


/-- C5, at the failing input: the connection succeeds with handle 1 and the
lookup of a malformed pattern reports the status -22.  The first call ends in
the error right after the lookup: its library calls are `kmod_new` and the
lookup and nothing else, so one handle was acquired and none was released;
`kmod_unref` is not called before the error leaves the function. -/
theorem lookup_failure_keeps_connection :
    kmod_alias_lookup failingLib malformedPattern none =
        { fn_extra := none,
          trace := [Event.kmod_new (some 1),
                    Event.kmod_module_new_from_lookup 1 malformedPattern (-22) none],
          outcome := Outcome.error
            "kmod_module_new_from_lookup() failed: Unknown error -22" } ∧
      releases (kmod_alias_lookup failingLib malformedPattern none).trace = [] ∧
      handles_acquired (kmod_alias_lookup failingLib malformedPattern none).trace = 1 ∧
      handles_released (kmod_alias_lookup failingLib malformedPattern none).trace = 0 := by
  decide

/-- C6, at the failing input: the lookup reports the status -22 (the error
number 22, negated).  The message the first call raises is the fixed text
followed by `strerror` of the status itself, -22, which the C library does not
know; it is not `strerror` of the error number 22. -/
theorem lookup_error_text_takes_status :
    (kmod_alias_lookup failingLib malformedPattern none).outcome =
        Outcome.error ("kmod_module_new_from_lookup() failed: " ++
          failingLib.strerror (-22)) ∧
      failingLib.strerror (-22) = "Unknown error -22" ∧
      failingLib.strerror 22 = "Invalid argument" ∧
      (kmod_alias_lookup failingLib malformedPattern none).outcome ≠
        Outcome.error ("kmod_module_new_from_lookup() failed: " ++
          failingLib.strerror 22) := by
  decide

/-- C7: when the connection and the lookup succeed with the result list `L` of
any length, over a run until `Done` (rows up to the cap, then `Done`): a call
that returns a row makes no release call; the call that returns `Done` calls
`kmod_module_unref_list` on the list handle the lookup returned (the head of
all of `L`, not the position reached) and then `kmod_unref` on the connection
handle; and these are the only release calls of the whole run, one each. -/
theorem handles_released_once_on_done (lib : KmodLib) (arg0 : String) (c : Nat)
    (head : Option Nat) (L : List String) (n : Nat)
    (hs : Serves lib arg0 c head L) (hn : min L.length 32 + 1 ≤ n) :
    outcomes (calls lib arg0 n none) =
        (L.take 32).map Outcome.next ++ [Outcome.done] ∧
      (∀ r ∈ calls lib arg0 n none,
        (∀ s, r.outcome = Outcome.next s → releases r.trace = []) ∧
        (r.outcome = Outcome.done →
          releases r.trace =
            [Event.kmod_module_unref_list head, Event.kmod_unref (some c)])) ∧
      releases (traceOf (calls lib arg0 n none)) =
        [Event.kmod_module_unref_list head, Event.kmod_unref (some c)] := by
  obtain ⟨rows, last, hcalls, _, _, hrows, hlast⟩ := request_run hs n hn
  refine ⟨request_outcomes hs n hn, ?_, ?_⟩
  · intro r hr
    rw [hcalls] at hr
    obtain ⟨r0, hr0, hrel⟩ := mem_withInit hr
    refine call_releases lib _ (initTrace_observed c arg0 _ head 0).1 ?_ hrel
    rcases List.mem_append.mp hr0 with h | h
    · exact Or.inl (hrows r0 h)
    · rw [List.mem_singleton.mp h]
      exact Or.inr hlast
  · rw [hcalls, traceOf_withInit _ _ (by simp), traceOf_append, releases_append,
      releases_append, (initTrace_observed c arg0 _ head 0).1, (rows_observed rows hrows).1]
    simpa [traceOf] using (done_released hlast).2.2.1

/-- C7 at a list of 34 names, two of which are never produced: the only
release calls of the run are on the head of the list and on the connection. -/
theorem handles_released_once_on_done_witness :
    releases (traceOf (calls (listLib 1 0 longList) examplePattern 33 none)) =
      [Event.kmod_module_unref_list (some 0), Event.kmod_unref (some 1)] :=
  (handles_released_once_on_done (listLib 1 0 longList) examplePattern 1 (some 0)
    longList 33 (by decide) (by decide)).2.2

/-- C8 fails: with the four matches of the example, a request that ends after
one row-producing call, without `Done`, has acquired the connection and the
list and released neither. -/
theorem abandoned_request_keeps_handles :
    outcomes (calls (listLib 1 0 exampleList) examplePattern 1 none) =
        [Outcome.next "ahci"] ∧
      handles_acquired (traceOf (calls (listLib 1 0 exampleList) examplePattern 1 none)) = 2 ∧
      handles_released (traceOf (calls (listLib 1 0 exampleList) examplePattern 1 none)) = 0 ∧
      ¬ (handles_acquired (traceOf (calls (listLib 1 0 exampleList) examplePattern 1 none)) =
        handles_released (traceOf (calls (listLib 1 0 exampleList) examplePattern 1 none))) := by
  decide

/-- C8 as amended: the handles are released on the call that returns `Done`
and nowhere else.  When the connection and the lookup succeed with the list
`L`, a request that ends after `k` row-producing calls (`1 ≤ k`, `k` at most
the number of rows) has seen the first `k` names, has acquired the connection
and the list, and has made no release call; a request that runs until `Done`
has released as many handles as it acquired. -/
theorem release_only_on_done (lib : KmodLib) (arg0 : String) (c : Nat)
    (head : Option Nat) (L : List String) (k n : Nat)
    (hs : Serves lib arg0 c head L) (hk1 : 1 ≤ k) (hk : k ≤ min L.length 32)
    (hn : min L.length 32 + 1 ≤ n) :
    outcomes (calls lib arg0 k none) = (L.take k).map Outcome.next ∧
      releases (traceOf (calls lib arg0 k none)) = [] ∧
      handles_released (traceOf (calls lib arg0 k none)) = 0 ∧
      handles_acquired (traceOf (calls lib arg0 k none)) = 2 ∧
      handles_acquired (traceOf (calls lib arg0 n none)) =
        handles_released (traceOf (calls lib arg0 n none)) := by
  obtain ⟨rows, last, hcalls, hstate, hout, hrows, hlast⟩ := request_run hs n hn
  have hlen : rows.length = min L.length 32 := by
    have := congrArg List.length hout
    simp only [outcomes, List.length_map, List.length_take] at this
    omega
  have hkn : k ≤ n := by omega
  have hprefix : calls lib arg0 k (some (initState c head)) = rows.take k := by
    rw [calls_take lib arg0 k n _ hkn, hstate, List.take_append_of_le_length (by omega)]
  have hne : rows.take k ≠ [] := by
    intro h
    have := congrArg List.length h
    simp only [List.length_take, List.length_nil] at this
    omega
  have hsub : ∀ r ∈ rows.take k, IsRow lib c head r :=
    fun r hr => hrows r (List.mem_of_mem_take hr)
  have hhead : head ≠ none := by
    obtain ⟨_, _, _, hch⟩ := hs
    cases L with
    | nil => simp at hk; omega
    | cons s rest =>
      obtain ⟨node, hnode, _⟩ := chain_cons hch
      rw [hnode]
      exact Option.some_ne_none node
  obtain ⟨i1, i2, _, i4⟩ := initTrace_observed c arg0
    (lib.kmod_module_new_from_lookup c arg0).1 head 0
  rw [if_neg hhead] at i4
  obtain ⟨p1, p2, p3⟩ := rows_observed (rows.take k) hsub
  obtain ⟨q1, q2, q3⟩ := rows_observed rows hrows
  obtain ⟨_, _, _, d4, d5⟩ := done_released hlast
  rw [if_neg hhead] at d5
  refine ⟨?_, ?_, ?_, ?_, ?_⟩
  · rw [calls_first_serves hs k, hprefix, outcomes_withInit]
    have := congrArg (List.take k) hout
    simp only [outcomes, ← List.map_take, List.take_take] at this ⊢
    rw [this, min_eq_left (by omega)]
  · rw [calls_first_serves hs k, hprefix, traceOf_withInit _ _ hne, releases_append, i1, p1]
    rfl
  · rw [calls_first_serves hs k, hprefix, traceOf_withInit _ _ hne, handles_released_append,
      i2, p3]
  · rw [calls_first_serves hs k, hprefix, traceOf_withInit _ _ hne, handles_acquired_append,
      i4, p2]
  · rw [hcalls, traceOf_withInit _ _ (by simp), traceOf_append, handles_acquired_append,
      handles_acquired_append, handles_released_append, handles_released_append, i2, i4,
      q2, q3]
    simp [traceOf, d4, d5]

/-- C8 as amended, at the example: abandoned after one row, the request has
acquired two handles and released none. -/
theorem release_only_on_done_witness :
    releases (traceOf (calls (listLib 1 0 exampleList) examplePattern 1 none)) = [] ∧
      handles_released (traceOf (calls (listLib 1 0 exampleList) examplePattern 1 none)) = 0 ∧
      handles_acquired (traceOf (calls (listLib 1 0 exampleList) examplePattern 1 none)) = 2 ∧
      handles_acquired (traceOf (calls (listLib 1 0 exampleList) examplePattern 5 none)) =
        handles_released (traceOf (calls (listLib 1 0 exampleList) examplePattern 5 none)) :=
  (release_only_on_done (listLib 1 0 exampleList) examplePattern 1 (some 0) exampleList
    1 5 (by decide) (by decide) (by decide) (by decide)).2

/-- C9: when the connection and the lookup succeed, then whatever the list
looks like (the successor function of the library is arbitrary, so the list
may be cyclic or otherwise corrupt), a caller that calls until `Done` makes at
most 33 calls: at most 32 rows and then `Done`, and no call ends in an error.
In every state the persistent slot can be in, `call_cntr` is at most 32. -/
theorem cap_bounds_any_list (lib : KmodLib) (arg0 : String) (c : Nat) (n : Nat)
    (hnew : lib.kmod_new = some c)
    (herr : 0 ≤ (lib.kmod_module_new_from_lookup c arg0).1) (hn : 33 ≤ n) :
    (calls lib arg0 n none).length ≤ 33 ∧
      (∃ rows, outcomes (calls lib arg0 n none) = rows ++ [Outcome.done] ∧
        rows.length ≤ 32 ∧ ∀ o ∈ rows, ∃ s, o = Outcome.next s) ∧
      (∀ s f, Reachable lib arg0 s → s = some f → f.call_cntr ≤ 32) := by
  obtain ⟨rows, last, hcalls, hlen, hrows, hlast⟩ :=
    state_run lib arg0 c (lib.kmod_module_new_from_lookup c arg0).2 n (initState c _)
      (initState_inv c _) (by simp only [SRF_MAXCALLS, initState]; omega)
  have hlen32 : rows.length ≤ 32 := by
    simpa [initState, SRF_MAXCALLS] using hlen
  refine ⟨?_, ⟨outcomes rows, ?_, ?_, ?_⟩, ?_⟩
  · rw [calls_first hnew herr n, length_withInit, hcalls]
    simp only [List.length_append, List.length_singleton]
    omega
  · rw [calls_first hnew herr n, outcomes_withInit, hcalls]
    simp [outcomes, (done_released hlast).1]
  · simpa [outcomes] using hlen32
  · intro o ho
    simp only [outcomes, List.mem_map] at ho
    obtain ⟨r, hr, rfl⟩ := ho
    exact row_outcome (hrows r hr)
  · intro s f hreach hs
    exact (reachable_bound hreach f hs).2

/-- C9 at a cyclic list, whose traversal never reaches `NULL`: the caller is
stopped after 32 rows. -/
theorem cap_bounds_any_list_witness :
    (calls cyclicLib examplePattern 40 none).length ≤ 33 ∧
      ∃ rows, outcomes (calls cyclicLib examplePattern 40 none) = rows ++ [Outcome.done] ∧
        rows.length ≤ 32 ∧ ∀ o ∈ rows, ∃ s, o = Outcome.next s :=
  have h := cap_bounds_any_list cyclicLib examplePattern 7 40 rfl (by decide) (by decide)
  ⟨h.1, h.2.1⟩

/-- C10: a per-call step that returns the row `s` makes exactly these library
calls, in this order: it takes one reference on the module at the position
marker, reads the module's name and copies it, drops the reference on that
same module, advances the marker, converts the copy to the returned value and
frees the copy; `s` is the name read while the reference was held.  After any
number of calls of a request, from any state, the references taken on any
module `m` and not yet dropped are zero. -/
theorem module_refs_balanced (lib : KmodLib) (arg0 : String) (f : FuncCallContext)
    (s : String) (k : Nat) (fx : Option FuncCallContext) (m : Nat)
    (h : (percall lib f).outcome = Outcome.next s) :
    (∃ itr, f.user_fctx.itr = some itr ∧
        s = lib.kmod_module_get_name (lib.kmod_module_get_module itr) ∧
        (percall lib f).trace =
          [Event.kmod_module_get_module itr (lib.kmod_module_get_module itr),
           Event.kmod_module_get_name (lib.kmod_module_get_module itr) s,
           Event.strdup s,
           Event.kmod_module_unref (lib.kmod_module_get_module itr),
           Event.kmod_list_next f.user_fctx.list itr
             (lib.kmod_list_next f.user_fctx.list itr),
           Event.CStringGetTextDatum s,
           Event.free s]) ∧
      refs_held (traceOf (calls lib arg0 k fx)) m = 0 := by
  refine ⟨?_, calls_refs lib arg0 m k fx⟩
  rcases percall_cases lib f with ⟨node, hitr, _, hp⟩ | ⟨_, hp⟩
  · rw [hp] at h ⊢
    have hs : lib.kmod_module_get_name (lib.kmod_module_get_module node) = s := by
      simpa [rowResult] using h
    subst hs
    exact ⟨node, hitr, rfl, rfl⟩
  · rw [hp] at h
    cases h

/-- C10 at the example: the first row, and the balance after the whole run. -/
theorem module_refs_balanced_witness :
    (∃ itr, (initState 1 (some 0)).user_fctx.itr = some itr ∧
        "ahci" = (listLib 1 0 exampleList).kmod_module_get_name
          ((listLib 1 0 exampleList).kmod_module_get_module itr) ∧
        (percall (listLib 1 0 exampleList) (initState 1 (some 0))).trace =
          [Event.kmod_module_get_module itr
             ((listLib 1 0 exampleList).kmod_module_get_module itr),
           Event.kmod_module_get_name
             ((listLib 1 0 exampleList).kmod_module_get_module itr) "ahci",
           Event.strdup "ahci",
           Event.kmod_module_unref ((listLib 1 0 exampleList).kmod_module_get_module itr),
           Event.kmod_list_next (initState 1 (some 0)).user_fctx.list itr
             ((listLib 1 0 exampleList).kmod_list_next
               (initState 1 (some 0)).user_fctx.list itr),
           Event.CStringGetTextDatum "ahci",
           Event.free "ahci"]) ∧
      refs_held (traceOf (calls (listLib 1 0 exampleList) examplePattern 5 none)) 0 = 0 :=
  module_refs_balanced (listLib 1 0 exampleList) examplePattern (initState 1 (some 0))
    "ahci" 5 none 0 (by decide)

end KmodAlias
